import Mathlib

/-!
# Canonic `WebAPI::Window`: a verification development

A shallow embedding of `src/lib/Window.cpp` (the `Window` object of a browser tab) and of the
toolkit routines it calls, followed by theorems about navigation, reply handling, `open`, and
the base64 helpers.

Conventions of the embedding:

* a `QString` is the list of its characters, a `QByteArray` the list of its bytes (naturals
  below 256);
* objects that the source allocates with `new` carry an identity number taken from an
  allocation counter, so that pointer equality is equality of identities;
* toolkit routines whose result the source only inspects (`QJsonDocument::fromJson`, the base64
  routines, whether `abort()` delivers `finished()` at once, whether a byte array is converted
  to a string up to its first zero byte) are fields of a `Toolkit` record; `qt` and `qt5` are
  the instances that follow the documentation of versions 6 and 5 of the toolkit;
* the classes `Document`, `Location`, `Navigator` and `MainWindow`, of which only the calls
  made by `Window` are at hand, are records whose setters store their argument;
* the network is a sequence of events (`Event`): a reply completes, and its `finished()` signal
  is delivered, at once or later, to `handleFinishedLoadingReply`;
* writes to `std::cout` and the signals a `Window` emits are not part of the state.
-/

set_option autoImplicit false

namespace WebAPI

/-! ## Strings and byte arrays -/

/-- A `QString`, as the list of its characters. -/
abbrev QString := List Char

/-- A `QByteArray`, as the list of its bytes. -/
abbrev QByteArray := List Nat

/-- The `QString` of a string literal of the source. -/
def qs (s : String) : QString := s.toList

/-- The bytes of an ASCII string literal. -/
def qb (s : String) : QByteArray := s.toList.map Char.toNat

/-- Number of UTF-16 code units a character takes in a `QString`. -/
def utf16Units (c : Char) : Nat := if c.toNat ≤ 65535 then 1 else 2

/-- Toolkit routine `QString::toLatin1`: every UTF-16 code unit above 255 becomes a question mark. -/
def toLatin1 (s : QString) : QByteArray :=
  s.flatMap fun c => if c.toNat ≤ 255 then [c.toNat] else List.replicate (utf16Units c) 63

/-- The Latin-1 reading of bytes: every byte is the character with that code point. -/
def latin1Text (b : QByteArray) : QString := b.map Char.ofNat

/-- The bytes that a conversion of a `QByteArray` to a `QString` reads.  The overloads of
version 5 of the toolkit measure the array with `qstrnlen` and so stop at the first zero byte;
those of version 6 read the whole array.  The source compiles against both. -/
def convertedBytes (stopsAtZeroByte : Bool) (b : QByteArray) : QByteArray :=
  if stopsAtZeroByte then b.takeWhile (fun x => x != 0) else b

/-- Whether a byte is a UTF-8 continuation byte. -/
def isCont (b : Nat) : Bool := 128 ≤ b && b < 192

/-- Decoding of the UTF-8 sequence that starts with byte `b0` and continues in `rest`: the
character read and the bytes left.  A well-formed sequence of one to four bytes yields its code
point; any other lead byte is consumed alone and yields the replacement character. -/
def utf8Next (b0 : Nat) (rest : QByteArray) : Char × QByteArray :=
  if b0 < 128 then (Char.ofNat b0, rest)
  else
    match rest with
    | [b1] =>
      if 194 ≤ b0 && b0 < 224 && isCont b1 then
        (Char.ofNat ((b0 - 192) * 64 + (b1 - 128)), [])
      else (Char.ofNat 65533, rest)
    | [b1, b2] =>
      if 194 ≤ b0 && b0 < 224 && isCont b1 then
        (Char.ofNat ((b0 - 192) * 64 + (b1 - 128)), [b2])
      else if 224 ≤ b0 && b0 < 240 && isCont b1 && isCont b2 &&
          2048 ≤ (b0 - 224) * 4096 + (b1 - 128) * 64 + (b2 - 128) &&
          !(55296 ≤ (b0 - 224) * 4096 + (b1 - 128) * 64 + (b2 - 128) &&
            (b0 - 224) * 4096 + (b1 - 128) * 64 + (b2 - 128) ≤ 57343) then
        (Char.ofNat ((b0 - 224) * 4096 + (b1 - 128) * 64 + (b2 - 128)), [])
      else (Char.ofNat 65533, rest)
    | b1 :: b2 :: b3 :: rest3 =>
      if 194 ≤ b0 && b0 < 224 && isCont b1 then
        (Char.ofNat ((b0 - 192) * 64 + (b1 - 128)), b2 :: b3 :: rest3)
      else if 224 ≤ b0 && b0 < 240 && isCont b1 && isCont b2 &&
          2048 ≤ (b0 - 224) * 4096 + (b1 - 128) * 64 + (b2 - 128) &&
          !(55296 ≤ (b0 - 224) * 4096 + (b1 - 128) * 64 + (b2 - 128) &&
            (b0 - 224) * 4096 + (b1 - 128) * 64 + (b2 - 128) ≤ 57343) then
        (Char.ofNat ((b0 - 224) * 4096 + (b1 - 128) * 64 + (b2 - 128)), b3 :: rest3)
      else if 240 ≤ b0 && b0 < 245 && isCont b1 && isCont b2 && isCont b3 &&
          65536 ≤ (b0 - 240) * 262144 + (b1 - 128) * 4096 + (b2 - 128) * 64 + (b3 - 128) &&
          (b0 - 240) * 262144 + (b1 - 128) * 4096 + (b2 - 128) * 64 + (b3 - 128) ≤ 1114111 then
        (Char.ofNat ((b0 - 240) * 262144 + (b1 - 128) * 4096 + (b2 - 128) * 64 + (b3 - 128)),
          rest3)
      else (Char.ofNat 65533, rest)
    | [] => (Char.ofNat 65533, [])

/-- The decoding loop of `fromUtf8`; `fuel` bounds the number of characters read. -/
def fromUtf8Aux : Nat → QByteArray → QString
  | 0, _ => []
  | _ + 1, [] => []
  | fuel + 1, b0 :: rest => (utf8Next b0 rest).1 :: fromUtf8Aux fuel (utf8Next b0 rest).2

/-- The UTF-8 reading of bytes, `QString::fromUtf8(data, size)`.  Every character takes at
least one byte, so the length of the input is fuel enough. -/
def fromUtf8 (b : QByteArray) : QString := fromUtf8Aux b.length b

/-- Toolkit routine `QString::contains(needle)`, case sensitive: `needle` occurs as a contiguous run. -/
def contains : QString → QString → Bool
  | [], needle => needle.isEmpty
  | c :: cs, needle => needle.isPrefixOf (c :: cs) || contains cs needle

/-- Toolkit routine `QString::endsWith(suffix, Qt::CaseInsensitive)`, with the case folding
of ASCII letters; for the ASCII suffix of the source, ".qml", no other character folds to one
of its letters. -/
def endsWithCaseInsensitive (s suffix : QString) : Bool :=
  (suffix.map Char.toLower).isSuffixOf (s.map Char.toLower)

/-- One pass of `QString::split(sep, Qt::SkipEmptyParts)`: `cur` is the part being read, held
in reverse. -/
def splitAux (sep : Char) : QString → QString → List QString
  | [], cur => if cur.isEmpty then [] else [cur.reverse]
  | c :: cs, cur =>
    if c = sep then
      if cur.isEmpty then splitAux sep cs [] else cur.reverse :: splitAux sep cs []
    else splitAux sep cs (c :: cur)

/-- Toolkit routine `QString::split(sep, Qt::SkipEmptyParts)`. -/
def split (s : QString) (sep : Char) : List QString := splitAux sep s []

/-! ## The toolkit base64 routines -/

/-- The base64 alphabet of `QByteArray::toBase64`. -/
def alphabet : List Char :=
  "ABCDEFGHIJKLMNOPQRSTUVWXYZabcdefghijklmnopqrstuvwxyz0123456789+/".toList

/-- The byte `alphabet[i]`. -/
def alphabetAt (i : Nat) : Nat := (alphabet.getD i 'A').toNat

/-- Toolkit routine `QByteArray::toBase64()` with its default options: the standard alphabet, three bytes per
loop turn packed into a 24-bit chunk and cut into four sextets, trailing `=` kept. -/
def toBase64 : QByteArray → QByteArray
  | [] => []
  | [a] =>
    let chunk := a <<< 16
    [alphabetAt ((chunk &&& 0x00fc0000) >>> 18), alphabetAt ((chunk &&& 0x0003f000) >>> 12),
      61, 61]
  | [a, b] =>
    let chunk := (a <<< 16) ||| (b <<< 8)
    [alphabetAt ((chunk &&& 0x00fc0000) >>> 18), alphabetAt ((chunk &&& 0x0003f000) >>> 12),
      alphabetAt ((chunk &&& 0x00000fc0) >>> 6), 61]
  | a :: b :: c :: rest =>
    let chunk := (a <<< 16) ||| (b <<< 8) ||| c
    alphabetAt ((chunk &&& 0x00fc0000) >>> 18) :: alphabetAt ((chunk &&& 0x0003f000) >>> 12) ::
      alphabetAt ((chunk &&& 0x00000fc0) >>> 6) :: alphabetAt (chunk &&& 0x0000003f) ::
      toBase64 rest

/-- Status of a base64 decoding, `QByteArray::Base64DecodingStatus`. -/
inductive Base64DecodingStatus where
  | Ok
  | IllegalInputLength
  | IllegalCharacter
  | IllegalPadding
  deriving DecidableEq, Repr

/-- Result of `QByteArray::fromBase64Encoding`. -/
structure FromBase64Result where
  decoded : QByteArray
  decodingStatus : Base64DecodingStatus
  deriving DecidableEq, Repr

/-- The value of a base64 character in the standard alphabet, `none` for any other byte. -/
def sextet (ch : Nat) : Option Nat :=
  if 65 ≤ ch ∧ ch ≤ 90 then some (ch - 65)
  else if 97 ≤ ch ∧ ch ≤ 122 then some (ch - 97 + 26)
  else if 48 ≤ ch ∧ ch ≤ 57 then some (ch - 48 + 52)
  else if ch = 43 then some 62
  else if ch = 47 then some 63
  else none

/-- Loop state of the decoder: the bit buffer, the number of bits it holds, and the output. -/
structure DecodeState where
  buf : Nat
  nbits : Nat
  output : QByteArray
  deriving DecidableEq, Repr

/-- One turn of the decoding loop under `IgnoreBase64DecodingErrors`: a byte outside the
alphabet (the padding `=` included) is skipped. -/
def decodeStep (st : DecodeState) (ch : Nat) : DecodeState :=
  match sextet ch with
  | none => st
  | some d =>
    let buf := ((st.buf <<< 6) ||| d) % 2 ^ 32
    let nbits := st.nbits + 6
    if 8 ≤ nbits then
      { buf := buf &&& ((1 <<< (nbits - 8)) - 1), nbits := nbits - 8,
        output := st.output ++ [(buf >>> (nbits - 8)) % 256] }
    else { buf := buf, nbits := nbits, output := st.output }

/-- Toolkit routine `QByteArray::fromBase64Encoding(base64)` with its default options, under which errors in
the input are ignored and the status is `Ok`. -/
def fromBase64Encoding (base64 : QByteArray) : FromBase64Result :=
  { decoded := (base64.foldl decodeStep { buf := 0, nbits := 0, output := [] }).output,
    decodingStatus := Base64DecodingStatus.Ok }

/-! ## The toolkit JSON reader -/

/-- A JSON value, `QJsonValue`.  Numbers and strings are kept as the text they have in the
source document. -/
inductive QJsonValue where
  | Null
  | Bool (b : Bool)
  | Number (text : QByteArray)
  | String (text : QByteArray)
  | Array (items : List QJsonValue)
  | Object (members : List (QByteArray × QJsonValue))

/-- A JSON object, `QJsonObject`: its members in document order.  A default-constructed
`QJsonObject` is the empty list. -/
abbrev QJsonObject := List (QByteArray × QJsonValue)

/-- A JSON document, `QJsonDocument`: an array or an object. -/
inductive QJsonDocument where
  | Array (items : List QJsonValue)
  | Object (members : QJsonObject)

/-- JSON white space. -/
def isSpace (b : Nat) : Bool := b = 32 || b = 9 || b = 10 || b = 13

/-- Skips white space. -/
def eatSpace (input : QByteArray) : QByteArray := input.dropWhile isSpace

/-- Skips a UTF-8 byte order mark. -/
def eatBOM : QByteArray → QByteArray
  | 239 :: 187 :: 191 :: rest => rest
  | input => input

/-- A decimal digit. -/
def isDigit (b : Nat) : Bool := 48 ≤ b && b ≤ 57

/-- A hexadecimal digit. -/
def isHexDigit (b : Nat) : Bool :=
  isDigit b || (65 ≤ b && b ≤ 70) || (97 ≤ b && b ≤ 102)

/-- Reads the rest of a string whose opening quote has been consumed: the text up to the
closing quote and the input after it.  Escapes are checked, control characters and malformed
UTF-8 are rejected. -/
def scanString : Nat → QByteArray → QByteArray → Option (QByteArray × QByteArray)
  | 0, _, _ => none
  | _ + 1, [], _ => none
  | fuel + 1, b :: rest, acc =>
    if b = 34 then some (acc.reverse, rest)
    else if b = 92 then
      match rest with
      | [] => none
      | e :: rest1 =>
        if e = 34 || e = 92 || e = 47 || e = 98 || e = 102 || e = 110 || e = 114 || e = 116 then
          scanString fuel rest1 (e :: b :: acc)
        else if e = 117 then
          match rest1 with
          | h1 :: h2 :: h3 :: h4 :: rest2 =>
            if isHexDigit h1 && isHexDigit h2 && isHexDigit h3 && isHexDigit h4 then
              scanString fuel rest2 (h4 :: h3 :: h2 :: h1 :: e :: b :: acc)
            else none
          | _ => none
        else none
    else if b < 32 then none
    else if b < 128 then scanString fuel rest (b :: acc)
    else if (utf8Next b rest).2.length < rest.length then
      scanString fuel (utf8Next b rest).2
        ((rest.take (rest.length - (utf8Next b rest).2.length)).reverse ++ b :: acc)
    else none

/-- Reads a number: an optional minus sign, an integer part without a superfluous leading
zero, an optional fraction and an optional exponent.  The text read and the input left. -/
def parseNumber (input : QByteArray) : Option (QByteArray × QByteArray) :=
  let (sign, s0) := match input with
    | 45 :: rest => ([45], rest)
    | _ => ([], input)
  let intPart : Option (QByteArray × QByteArray) := match s0 with
    | 48 :: rest => some ([48], rest)
    | _ => if (s0.takeWhile isDigit).isEmpty then none
           else some (s0.takeWhile isDigit, s0.dropWhile isDigit)
  match intPart with
  | none => none
  | some (ip, s1) =>
    let frac : Option (QByteArray × QByteArray) := match s1 with
      | 46 :: rest =>
        if (rest.takeWhile isDigit).isEmpty then none
        else some (46 :: rest.takeWhile isDigit, rest.dropWhile isDigit)
      | _ => some ([], s1)
    match frac with
    | none => none
    | some (fp, s2) =>
      let afterE : Option (QByteArray × QByteArray) := match s2 with
        | e :: rest =>
          if e = 101 || e = 69 then
            let (esign, s3) := match rest with
              | 43 :: r => ([43], r)
              | 45 :: r => ([45], r)
              | _ => ([], rest)
            if (s3.takeWhile isDigit).isEmpty then none
            else some (e :: esign ++ s3.takeWhile isDigit, s3.dropWhile isDigit)
          else some ([], s2)
        | [] => some ([], s2)
      match afterE with
      | none => none
      | some (ep, s3) => some (sign ++ ip ++ fp ++ ep, s3)

/-- Reads the values of a non-empty array up to and including the closing bracket, with
`value` as the reader of one value. -/
def parseItems (value : QByteArray → Option (QJsonValue × QByteArray)) :
    Nat → QByteArray → List QJsonValue → Option (List QJsonValue × QByteArray)
  | 0, _, _ => none
  | fuel + 1, input, acc =>
    match value (eatSpace input) with
    | none => none
    | some (v, rest) =>
      match eatSpace rest with
      | 93 :: rest1 => some ((v :: acc).reverse, rest1)
      | 44 :: rest1 => parseItems value fuel rest1 (v :: acc)
      | _ => none

/-- Reads the members of a non-empty object up to and including the closing brace, with
`value` as the reader of one value. -/
def parseMembers (value : QByteArray → Option (QJsonValue × QByteArray)) :
    Nat → QByteArray → QJsonObject → Option (QJsonObject × QByteArray)
  | 0, _, _ => none
  | fuel + 1, input, acc =>
    match eatSpace input with
    | 34 :: rest =>
      match scanString rest.length rest [] with
      | none => none
      | some (key, rest1) =>
        match eatSpace rest1 with
        | 58 :: rest2 =>
          match value (eatSpace rest2) with
          | none => none
          | some (v, rest3) =>
            match eatSpace rest3 with
            | 125 :: rest4 => some (((key, v) :: acc).reverse, rest4)
            | 44 :: rest4 => parseMembers value fuel rest4 ((key, v) :: acc)
            | _ => none
        | _ => none
    | _ => none

/-- Reads one JSON value at the head of the input.  `nestingLevel` counts the arrays and
objects that enclose it; the reader gives up beyond 1024 of them. -/
def parseValue : Nat → Nat → QByteArray → Option (QJsonValue × QByteArray)
  | 0, _, _ => none
  | fuel + 1, nestingLevel, input =>
    match input with
    | 110 :: 117 :: 108 :: 108 :: rest => some (QJsonValue.Null, rest)
    | 116 :: 114 :: 117 :: 101 :: rest => some (QJsonValue.Bool true, rest)
    | 102 :: 97 :: 108 :: 115 :: 101 :: rest => some (QJsonValue.Bool false, rest)
    | 34 :: rest =>
      (scanString rest.length rest []).map fun r => (QJsonValue.String r.1, r.2)
    | 91 :: rest =>
      if 1024 < nestingLevel + 1 then none
      else
        match eatSpace rest with
        | 93 :: rest1 => some (QJsonValue.Array [], rest1)
        | rest1 =>
          (parseItems (parseValue fuel (nestingLevel + 1)) rest1.length rest1 []).map
            fun r => (QJsonValue.Array r.1, r.2)
    | 123 :: rest =>
      if 1024 < nestingLevel + 1 then none
      else
        match eatSpace rest with
        | 125 :: rest1 => some (QJsonValue.Object [], rest1)
        | rest1 =>
          (parseMembers (parseValue fuel (nestingLevel + 1)) rest1.length rest1 []).map
            fun r => (QJsonValue.Object r.1, r.2)
    | _ => (parseNumber input).map fun r => (QJsonValue.Number r.1, r.2)

/-- Toolkit routine `QJsonDocument::fromJson(json, &error)`: the document, or `none` when `error` reports a
parse error.  The text is one array or one object, white space around it allowed, nothing
after it. -/
def fromJson (json : QByteArray) : Option QJsonDocument :=
  match parseValue 1025 0 (eatSpace (eatBOM json)) with
  | some (QJsonValue.Array items, rest) =>
    if (eatSpace rest).isEmpty then some (QJsonDocument.Array items) else none
  | some (QJsonValue.Object members, rest) =>
    if (eatSpace rest).isEmpty then some (QJsonDocument.Object members) else none
  | _ => none

/-- The toolkit routines that `Window` calls and whose results it inspects. -/
structure Toolkit where
  /-- The routine `QByteArray::toBase64()`. -/
  toBase64 : QByteArray → QByteArray
  /-- The routine `QByteArray::fromBase64Encoding(base64)`. -/
  fromBase64Encoding : QByteArray → FromBase64Result
  /-- The routine `QJsonDocument::fromJson`, `none` when it reports a parse error. -/
  fromJson : QByteArray → Option QJsonDocument
  /-- Whether `QNetworkReply::abort()` delivers `finished()` to its slots before it returns. -/
  abortEmitsFinished : Bool
  /-- Whether the conversions of a `QByteArray` to a `QString` stop at the first zero byte, as
  in version 5 of the toolkit, or read the whole array, as in version 6. -/
  stopsAtZeroByte : Bool

/-- Toolkit routine `QString::fromLatin1(ba)`, for a byte array `ba`. -/
def Toolkit.fromLatin1 (tk : Toolkit) (ba : QByteArray) : QString :=
  latin1Text (convertedBytes tk.stopsAtZeroByte ba)

/-- The implicit conversion `QString(ba)` of a byte array, which reads it as UTF-8. -/
def Toolkit.fromByteArray (tk : Toolkit) (ba : QByteArray) : QString :=
  fromUtf8 (convertedBytes tk.stopsAtZeroByte ba)

/-- The toolkit as its documentation describes it, in the version whose byte array
conversions stop at the first zero byte (`true`) or read the whole array (`false`). -/
def qtWith (stopsAtZeroByte : Bool) : Toolkit :=
  { toBase64 := WebAPI.toBase64
    fromBase64Encoding := WebAPI.fromBase64Encoding
    fromJson := WebAPI.fromJson
    abortEmitsFinished := true
    stopsAtZeroByte := stopsAtZeroByte }

/-- The toolkit in version 6. -/
def qt : Toolkit := qtWith false

/-- The toolkit in version 5. -/
def qt5 : Toolkit := qtWith true

/-- Valid base64 text, as the words "valid base64" of the specification are read (RFC 4648):
the length is a multiple of four, at most two `=` stand at the end, and every byte before them
is a character of the alphabet. -/
def isValidBase64 (b : QByteArray) : Bool :=
  b.length % 4 == 0 &&
    (b.reverse.takeWhile (fun x => x == 61)).length ≤ 2 &&
    (b.reverse.dropWhile (fun x => x == 61)).all (fun ch => (sextet ch).isSome)

/-! ## The objects around a `Window` -/

/-- The view variants that `handleFinishedLoadingReply` instantiates. -/
inductive View where
  | DebugView
  | RawSourceView
  | JSONView
  | HTMLView
  | QMLView
  deriving DecidableEq, Repr

/-- Modelled from the spec: the `Document` class, whose source file is not at hand.  It holds
the URL, the ready-state string, the raw fetched bytes and the parsed JSON object type and
value; every setter stores its argument.  `id` is the identity of the allocated object. -/
structure Document where
  id : Nat
  url : QString
  readyState : QString
  rawData : QByteArray
  objectType : QJsonObject
  objectValue : QJsonObject

/-- Modelled from the spec: `new Document(mainWindow)`, a document with nothing loaded. -/
def Document.new (id : Nat) : Document :=
  { id := id, url := [], readyState := [], rawData := [], objectType := [], objectValue := [] }

/-- Modelled from the spec: `Document::setURL`. -/
def Document.setURL (d : Document) (url : QString) : Document := { d with url := url }

/-- Modelled from the spec: `Document::setReadyState`. -/
def Document.setReadyState (d : Document) (readyState : QString) : Document :=
  { d with readyState := readyState }

/-- Modelled from the spec: `Document::setRawData`. -/
def Document.setRawData (d : Document) (rawData : QByteArray) : Document :=
  { d with rawData := rawData }

/-- Modelled from the spec: `Document::setObjectType`. -/
def Document.setObjectType (d : Document) (objectType : QJsonObject) : Document :=
  { d with objectType := objectType }

/-- Modelled from the spec: `Document::setObjectValue`. -/
def Document.setObjectValue (d : Document) (objectValue : QJsonObject) : Document :=
  { d with objectValue := objectValue }

/-- Modelled from the spec: the `Location` object of a window, with the href it reports. -/
structure Location where
  id : Nat
  href : QString
  deriving DecidableEq, Repr

/-- Modelled from the spec: `Location::getHref`. -/
def Location.getHref (l : Location) : QString := l.href

/-- Modelled from the spec: the `Navigator` object of a window. -/
structure Navigator where
  id : Nat
  deriving DecidableEq, Repr

/-- Modelled from the spec: the `MainWindow` host, whose source file is not at hand: the view
selector container that views are appended to and cleared from, the index of the active view,
the two progress readings, the global history and the number of viewport resets. -/
structure MainWindow where
  views : List View
  activeViewIndex : Int
  uploadProgress : Int × Int
  downloadProgress : Int × Int
  globalHistory : List QString
  contentViewportResets : Nat
  deriving DecidableEq, Repr

/-- Modelled from the spec: `MainWindow::clearViews` empties the container. -/
def MainWindow.clearViews (m : MainWindow) : MainWindow := { m with views := [] }

/-- Modelled from the spec: `MainWindow::appendView` adds a view at the end. -/
def MainWindow.appendView (m : MainWindow) (v : View) : MainWindow :=
  { m with views := m.views ++ [v] }

/-- Modelled from the spec: `MainWindow::setActiveViewIndex` stores the index. -/
def MainWindow.setActiveViewIndex (m : MainWindow) (i : Int) : MainWindow :=
  { m with activeViewIndex := i }

/-- Modelled from the spec: `MainWindow::updateGlobalHistory` records the href. -/
def MainWindow.updateGlobalHistory (m : MainWindow) (href : QString) : MainWindow :=
  { m with globalHistory := m.globalHistory ++ [href] }

/-- Modelled from the spec: `MainWindow::resetContentViewport`. -/
def MainWindow.resetContentViewport (m : MainWindow) : MainWindow :=
  { m with contentViewportResets := m.contentViewportResets + 1 }

/-- Modelled from the spec: `MainWindow::setUploadProgress`. -/
def MainWindow.setUploadProgress (m : MainWindow) (sent total : Int) : MainWindow :=
  { m with uploadProgress := (sent, total) }

/-- Modelled from the spec: `MainWindow::setDownloadProgress`. -/
def MainWindow.setDownloadProgress (m : MainWindow) (received total : Int) : MainWindow :=
  { m with downloadProgress := (received, total) }

/-- A `QNetworkReply` as the window observes it. -/
structure QNetworkReply where
  /-- The href the request was made for. -/
  request : QString
  /-- What `isRunning()` answers: the reply is in flight. -/
  running : Bool
  /-- Whether `abort()` has been called on it. -/
  aborted : Bool
  /-- Whether its `finished()` signal has been delivered. -/
  finishedEmitted : Bool
  /-- Whether `error()` is different from `NoError`. -/
  error : Bool
  /-- The bytes that `readAll()` returns. -/
  data : QByteArray
  /-- The value of `header(QNetworkRequest::ContentTypeHeader)`, `none` for an invalid variant. -/
  contentType : Option QString
  /-- The value of `url().path()`. -/
  path : QString
  deriving DecidableEq, Repr

/-- The reply that `QNetworkAccessManager::get` returns: in flight, nothing received. -/
def QNetworkReply.get (href : QString) : QNetworkReply :=
  { request := href, running := true, aborted := false, finishedEmitted := false,
    error := false, data := [], contentType := none, path := [] }

/-- Toolkit routine `QNetworkReply::isRunning`. -/
def QNetworkReply.isRunning (r : QNetworkReply) : Bool := r.running

/-- Toolkit routine `QNetworkReply::readAll`. -/
def QNetworkReply.readAll (r : QNetworkReply) : QByteArray := r.data

/-- The state of a reply once `abort()` has run on it: no longer in flight, with the
operation-cancelled error. -/
def QNetworkReply.abort (r : QNetworkReply) : QNetworkReply :=
  { r with running := false, aborted := true, error := true }

/-! ## `Window` -/

/-- A `Window` with its surroundings.  The first five fields are the members of the class; a
`QNetworkReply *` is the position of the reply in `replies`.  The other fields are what the
member functions act on outside the object: every reply issued through the network access
manager in order of issue, the allocation counter, the objects handed to `deleteLater`, and
the URLs handed to `QDesktopServices::openUrl`. -/
structure Window where
  m_document : Document
  m_location : Location
  m_navigator : Navigator
  m_mainWindow : MainWindow
  m_networkReply : Option Nat
  replies : List QNetworkReply
  nextObjectId : Nat
  deletedLaterDocuments : List Nat
  deletedLaterReplies : List Nat
  openedUrls : List QString

/-- The constructor `Window::Window(mainWindow, parent)`: a fresh document, location and
navigator, nothing issued yet.  The member `m_networkReply`, which the constructor does not
mention, starts as the null pointer, as the test in `handleLocationHrefChange` presupposes. -/
def Window.new (mainWindow : MainWindow) : Window :=
  { m_document := Document.new 0
    m_location := { id := 1, href := [] }
    m_navigator := { id := 2 }
    m_mainWindow := mainWindow
    m_networkReply := none
    replies := []
    nextObjectId := 3
    deletedLaterDocuments := []
    deletedLaterReplies := []
    openedUrls := [] }

/-- Source function `Window::btoa`. -/
def Window.btoa (tk : Toolkit) (str : QString) : QString :=
  let res := tk.fromBase64Encoding (toLatin1 str)
  if res.decodingStatus ≠ Base64DecodingStatus.Ok then qs ""
  else tk.fromLatin1 res.decoded

/-- Source function `Window::atob`; the returned `QByteArray` is converted to the `QString` result. -/
def Window.atob (tk : Toolkit) (str : QString) : QString :=
  tk.fromByteArray (tk.toBase64 (toLatin1 str))

/-- Toolkit routine `QDesktopServices::openUrl(url)`. -/
def Window.openUrl (w : Window) (url : QString) : Window :=
  { w with openedUrls := w.openedUrls ++ [url] }

/-- The body of the loop of `Window::open` for one entry of the feature list. -/
def Window.openFeature (url : QString) (w : Window) (windowFeature : QString) : Window :=
  let windowsFeatureSplit := split windowFeature '='
  if windowsFeatureSplit.length = 2 then
    let key := windowsFeatureSplit.getD 0 []
    let value := windowsFeatureSplit.getD 1 []
    if key = qs "external" ∧ value = qs "yes" then w.openUrl url else w
  else w

/-- Source function `Window::open`. -/
def Window.open (url windowName windowFeatures : QString) (w : Window) : Window :=
  let _ := windowName
  let windowFeaturesSplit := split windowFeatures ','
  windowFeaturesSplit.foldl (Window.openFeature url) w

/-- The branch of `handleFinishedLoadingReply` for a reply without error: the views appended
to the host and the active view index, from the host with its views cleared. -/
def selectViews (tk : Toolkit) (reply : QNetworkReply) (rawData : QByteArray)
    (mainWindow : MainWindow) : MainWindow × Int :=
  let s1 : MainWindow × Int :=
    ((mainWindow.appendView View.DebugView).appendView View.RawSourceView, 1)
  let jsonDocument := tk.fromJson rawData
  let s2 : MainWindow × Int :=
    if jsonDocument.isSome then (s1.1.appendView View.JSONView, 1) else s1
  let contentType := reply.contentType
  let s3 : MainWindow × Int :=
    if contentType.isSome && contains (contentType.getD []) (qs "text/html") then
      (s2.1.appendView View.HTMLView, s2.2 + 1)
    else s2
  let s4 : MainWindow × Int :=
    if endsWithCaseInsensitive reply.path (qs ".qml") ||
        (contentType.isSome && contains (contentType.getD []) (qs "text/qml")) then
      (s3.1.appendView View.QMLView, s3.2 + 1)
    else s3
  s4

/-- Source function `Window::handleFinishedLoadingReply`, run for the `finished()` signal of the reply at
position `sender`, whose state is `reply`. -/
def Window.handleFinishedLoadingReply (tk : Toolkit) (sender : Nat) (reply : QNetworkReply)
    (w : Window) : Window :=
  let document := w.m_document.setReadyState (qs "complete")
  let networkReply := if w.m_networkReply = some sender then none else w.m_networkReply
  let mainWindow := w.m_mainWindow.clearViews
  let rawData := reply.readAll
  let activeViewIndex : Int := 0
  let objectType : QJsonObject := []
  let objectValue : QJsonObject := []
  let selected : MainWindow × Int :=
    if reply.error then (mainWindow, activeViewIndex)
    else selectViews tk reply rawData mainWindow
  let document := document.setRawData rawData
  let document := document.setObjectType objectType
  let document := document.setObjectValue objectValue
  let mainWindow := selected.1.setActiveViewIndex selected.2
  let mainWindow := mainWindow.updateGlobalHistory w.m_location.getHref
  { w with
    m_document := document
    m_networkReply := networkReply
    m_mainWindow := mainWindow
    deletedLaterReplies := w.deletedLaterReplies ++ [sender] }

/-- The call `m_networkReply->abort()` on the reply at position `i`, whose state is `r`: the
reply stops, and a toolkit that delivers `finished()` from within `abort()` runs the connected
slot `handleFinishedLoadingReply` before it returns. -/
def Window.abortReply (tk : Toolkit) (i : Nat) (r : QNetworkReply) (w : Window) : Window :=
  if tk.abortEmitsFinished then
    Window.handleFinishedLoadingReply tk i r.abort
      { w with replies := w.replies.set i { r.abort with finishedEmitted := true } }
  else { w with replies := w.replies.set i r.abort }

/-- The first statement of `handleLocationHrefChange`: a held reply that is running is aborted
and the pointer reset. -/
def Window.abortRunning (tk : Toolkit) (w : Window) : Window :=
  match w.m_networkReply with
  | none => w
  | some i =>
    match w.replies[i]? with
    | none => w
    | some r =>
      if r.isRunning then { Window.abortReply tk i r w with m_networkReply := none } else w

/-- Source function `Window::handleLocationHrefChange`. -/
def Window.handleLocationHrefChange (tk : Toolkit) (href : QString) (hardReload : Bool)
    (w : Window) : Window :=
  let _ := hardReload
  let w := Window.abortRunning tk w
  let w := { w with m_mainWindow := w.m_mainWindow.resetContentViewport }
  let w := { w with
    replies := w.replies ++ [QNetworkReply.get href]
    m_networkReply := some w.replies.length }
  let previousDoc := w.m_document
  let w := { w with
    m_document := ((Document.new w.nextObjectId).setURL href).setReadyState (qs "loading")
    nextObjectId := w.nextObjectId + 1 }
  let w := { w with deletedLaterDocuments := w.deletedLaterDocuments ++ [previousDoc.id] }
  let w := { w with
    m_mainWindow := (w.m_mainWindow.setUploadProgress 0 (-1)).setDownloadProgress 0 (-1) }
  w

/-! ## The event loop -/

/-- What can happen to a window between two returns to the event loop. -/
inductive Event where
  /-- The location asks for a reload: `handleLocationHrefChange(href, hardReload)` runs. -/
  | requiresReload (href : QString) (hardReload : Bool)
  /-- The network finishes the reply at position `i`, with this outcome. -/
  | completes (i : Nat) (error : Bool) (data : QByteArray) (contentType : Option QString)
      (path : QString)
  /-- The `finished()` signal of the reply at position `i` is delivered. -/
  | finished (i : Nat)

/-- One event.  A reply completes only while it runs; `finished()` is delivered once, for a
reply that no longer runs.  An event that cannot happen leaves the state as it is. -/
def step (tk : Toolkit) (w : Window) : Event → Window
  | Event.requiresReload href hardReload => Window.handleLocationHrefChange tk href hardReload w
  | Event.completes i error data contentType path =>
    match w.replies[i]? with
    | none => w
    | some r =>
      if r.running then
        let done : QNetworkReply :=
          { r with
            running := false
            error := error
            data := data
            contentType := contentType
            path := path }
        { w with replies := w.replies.set i done }
      else w
  | Event.finished i =>
    match w.replies[i]? with
    | none => w
    | some r =>
      if !r.running && !r.finishedEmitted then
        Window.handleFinishedLoadingReply tk i r
          { w with replies := w.replies.set i { r with finishedEmitted := true } }
      else w

/-- The window after a sequence of events, from its construction. -/
def run (tk : Toolkit) (mainWindow : MainWindow) (events : List Event) : Window :=
  events.foldl (step tk) (Window.new mainWindow)

/-- Number of replies in flight. -/
def Window.inFlight (w : Window) : Nat := (w.replies.filter QNetworkReply.running).length

/-- The single-flight invariant: a reply in flight is the reply that the window holds, and the
reply that the window holds is the one issued last. -/
def Window.SingleFlight (w : Window) : Prop :=
  (∀ i r, w.replies[i]? = some r → r.running = true → w.m_networkReply = some i) ∧
  (∀ i, w.m_networkReply = some i → i + 1 = w.replies.length)

/-- A host with nothing shown yet. -/
def MainWindow.empty : MainWindow :=
  { views := [], activeViewIndex := 0, uploadProgress := (0, -1), downloadProgress := (0, -1),
    globalHistory := [], contentViewportResets := 0 }

/-! ## Sample inputs -/

/-- A host that shows the two fixed views of an earlier page. -/
def MainWindow.showingPage : MainWindow :=
  { MainWindow.empty with views := [View.DebugView, View.RawSourceView], activeViewIndex := 1 }

/-- A finished reply that reports a network error. -/
def replyWithError : QNetworkReply :=
  { request := qs "http://example.org/missing", running := false, aborted := false,
    finishedEmitted := true, error := true, data := [], contentType := none,
    path := qs "/missing" }

/-- A finished reply with an HTML page. -/
def replyHtml : QNetworkReply :=
  { request := qs "http://example.org/index.html", running := false, aborted := false,
    finishedEmitted := true, error := false, data := qb "<html></html>",
    contentType := some (qs "text/html; charset=utf-8"), path := qs "/index.html" }

/-- A finished reply with plain text and no content type. -/
def replyPlain : QNetworkReply :=
  { request := qs "http://example.org/notes", running := false, aborted := false,
    finishedEmitted := true, error := false, data := qb "notes",
    contentType := none, path := qs "/notes" }

/-- A finished reply whose body is the JSON text `[]`, served as `text/html` from a path that
ends in `.qml`. -/
def replyAllViews : QNetworkReply :=
  { request := qs "http://example.org/view.qml", running := false, aborted := false,
    finishedEmitted := true, error := false, data := qb "[]",
    contentType := some (qs "text/html"), path := qs "/view.qml" }

/-- A finished reply whose body is the JSON object with the one member `"a": 1`. -/
def replyJsonObject : QNetworkReply :=
  { request := qs "http://example.org/a.json", running := false, aborted := false,
    finishedEmitted := true, error := false, data := [123, 34, 97, 34, 58, 49, 125],
    contentType := some (qs "application/json"), path := qs "/a.json" }

/-- The start of a session: the first page is requested and its reply has completed, but its
`finished()` signal is still queued. -/
def eventsFirstReplyComplete : List Event :=
  [Event.requiresReload (qs "file:///a.txt") false,
    Event.completes 0 false (qb "a") none (qs "/a.txt")]

/-- The start of a session: the first page is requested and its reply is in flight. -/
def eventsFirstReplyRunning : List Event :=
  [Event.requiresReload (qs "http://example.org/a") false]

/-! ## Bit arithmetic used by the base64 routines -/

theorem shiftRight_and (x m k : Nat) : (x &&& m) >>> k = (x >>> k) &&& (m >>> k) := by
  apply Nat.eq_of_testBit_eq
  intro i
  simp [Nat.testBit_shiftRight, Nat.testBit_and]

theorem field_18 (x : Nat) : (x &&& 0x00fc0000) >>> 18 = x / 262144 % 64 := by
  rw [shiftRight_and, Nat.shiftRight_eq_div_pow]
  exact Nat.and_pow_two_sub_one_eq_mod _ 6

theorem field_12 (x : Nat) : (x &&& 0x0003f000) >>> 12 = x / 4096 % 64 := by
  rw [shiftRight_and, Nat.shiftRight_eq_div_pow]
  exact Nat.and_pow_two_sub_one_eq_mod _ 6

theorem field_6 (x : Nat) : (x &&& 0x00000fc0) >>> 6 = x / 64 % 64 := by
  rw [shiftRight_and, Nat.shiftRight_eq_div_pow]
  exact Nat.and_pow_two_sub_one_eq_mod _ 6

theorem field_0 (x : Nat) : x &&& 0x0000003f = x % 64 :=
  Nat.and_pow_two_sub_one_eq_mod x 6

theorem shiftLeft_or (a b k : Nat) (h : b < 2 ^ k) : (a <<< k) ||| b = a * 2 ^ k + b := by
  rw [Nat.shiftLeft_eq, Nat.mul_comm a, ← Nat.mul_add_lt_is_or h]

theorem chunk_two (a b : Nat) (hb : b < 256) :
    (a <<< 16) ||| (b <<< 8) = a * 65536 + b * 256 := by
  have h : b * 256 < 2 ^ 16 := by omega
  have e : a * 65536 + b * 256 = 2 ^ 16 * a + b * 256 := by omega
  rw [e, Nat.mul_add_lt_is_or h, Nat.shiftLeft_eq, Nat.shiftLeft_eq, Nat.mul_comm a]

theorem chunk_three (a b c : Nat) (hb : b < 256) (hc : c < 256) :
    (a <<< 16) ||| (b <<< 8) ||| c = a * 65536 + b * 256 + c := by
  have h : c < 2 ^ 8 := by omega
  have e : a * 65536 + b * 256 = 2 ^ 8 * (a * 256 + b) := by omega
  rw [chunk_two a b hb, e, ← Nat.mul_add_lt_is_or h]

theorem sextet_alphabetAt : ∀ d, d < 64 → sextet (alphabetAt d) = some d := by
  decide

theorem alphabetAt_lt : ∀ d, d < 64 → 0 < alphabetAt d ∧ alphabetAt d < 128 := by
  decide

/-- One decoding turn on an alphabet character, in plain arithmetic. -/
theorem decodeStep_alphabetAt (st : DecodeState) (d : Nat) (hd : d < 64)
    (hbuf : st.buf < 2 ^ 20) :
    decodeStep st (alphabetAt d) =
      if 8 ≤ st.nbits + 6 then
        { buf := (st.buf * 64 + d) % 2 ^ (st.nbits + 6 - 8), nbits := st.nbits + 6 - 8,
          output := st.output ++ [(st.buf * 64 + d) / 2 ^ (st.nbits + 6 - 8) % 256] }
      else { buf := st.buf * 64 + d, nbits := st.nbits + 6, output := st.output } := by
  have hd6 : d < 2 ^ 6 := by omega
  have e : ((st.buf <<< 6) ||| d) % 2 ^ 32 = st.buf * 64 + d := by
    rw [shiftLeft_or _ _ _ hd6]
    omega
  simp only [decodeStep, sextet_alphabetAt d hd, e, Nat.one_shiftLeft,
    Nat.and_pow_two_sub_one_eq_mod, Nat.shiftRight_eq_div_pow]

theorem decodeStep_pad (st : DecodeState) : decodeStep st 61 = st := by
  simp [decodeStep, sextet]

/-- A decoding turn that leaves fewer than eight bits in the buffer. -/
theorem decodeStep_keep (buf nbits d : Nat) (out : QByteArray) (hd : d < 64)
    (hbuf : buf < 2 ^ 20) (hn : nbits + 6 < 8) :
    decodeStep { buf := buf, nbits := nbits, output := out } (alphabetAt d) =
      { buf := buf * 64 + d, nbits := nbits + 6, output := out } := by
  rw [decodeStep_alphabetAt _ _ hd hbuf, if_neg (by simp only []; omega)]

/-- A decoding turn that completes a byte. -/
theorem decodeStep_emit (buf nbits d : Nat) (out : QByteArray) (hd : d < 64)
    (hbuf : buf < 2 ^ 20) (hn : 8 ≤ nbits + 6) :
    decodeStep { buf := buf, nbits := nbits, output := out } (alphabetAt d) =
      { buf := (buf * 64 + d) % 2 ^ (nbits + 6 - 8), nbits := nbits + 6 - 8,
        output := out ++ [(buf * 64 + d) / 2 ^ (nbits + 6 - 8) % 256] } := by
  rw [decodeStep_alphabetAt _ _ hd hbuf, if_pos hn]

/-- Decoding the four characters of a full three-byte group appends the three bytes and
leaves the bit buffer empty. -/
theorem decode_group (a b c : Nat) (ha : a < 256) (hb : b < 256) (hc : c < 256)
    (out : QByteArray) (tail : QByteArray) :
    (toBase64 (a :: b :: c :: tail)).foldl decodeStep { buf := 0, nbits := 0, output := out } =
      (toBase64 tail).foldl decodeStep { buf := 0, nbits := 0, output := out ++ [a, b, c] } := by
  simp only [toBase64, chunk_three a b c hb hc, field_18, field_12, field_6, field_0,
    List.foldl_cons]
  rw [decodeStep_keep 0 0 _ out (Nat.mod_lt _ (by decide)) (by decide) (by decide)]
  rw [decodeStep_emit _ 6 _ out (Nat.mod_lt _ (by decide)) (by omega) (by decide)]
  rw [decodeStep_emit _ 4 _ _ (Nat.mod_lt _ (by decide)) (by omega) (by decide)]
  rw [decodeStep_emit _ 2 _ _ (Nat.mod_lt _ (by decide)) (by omega) (by decide)]
  have e1 : (0 * 64 + (a * 65536 + b * 256 + c) / 262144 % 64) * 64
      + (a * 65536 + b * 256 + c) / 4096 % 64 = a * 16 + b / 16 := by omega
  have e2 : ((a * 16 + b / 16) % 2 ^ (6 + 6 - 8)) * 64
      + (a * 65536 + b * 256 + c) / 64 % 64 = b * 4 + c / 64 := by
    norm_num
    omega
  have e3 : ((b * 4 + c / 64) % 2 ^ (4 + 6 - 8)) * 64
      + (a * 65536 + b * 256 + c) % 64 = c := by
    norm_num
    omega
  rw [e1, e2, e3]
  have o1 : (a * 16 + b / 16) / 2 ^ (6 + 6 - 8) % 256 = a := by
    norm_num
    omega
  have o2 : (b * 4 + c / 64) / 2 ^ (4 + 6 - 8) % 256 = b := by
    norm_num
    omega
  have o3 : c / 2 ^ (2 + 6 - 8) % 256 = c := by
    norm_num
    omega
  have z : c % 2 ^ (2 + 6 - 8) = 0 := Nat.mod_one c
  rw [o1, o2, o3, z]
  simp

/-- Decoding the encoding of a single last byte. -/
theorem decode_one (a : Nat) (ha : a < 256) (out : QByteArray) :
    ((toBase64 [a]).foldl decodeStep { buf := 0, nbits := 0, output := out }).output =
      out ++ [a] := by
  simp only [toBase64, Nat.shiftLeft_eq, field_18, field_12, List.foldl_cons, List.foldl_nil,
    decodeStep_pad]
  rw [decodeStep_keep 0 0 _ out (Nat.mod_lt _ (by decide)) (by decide) (by decide)]
  rw [decodeStep_emit _ 6 _ out (Nat.mod_lt _ (by decide)) (by omega) (by decide)]
  have o1 : ((0 * 64 + a * 2 ^ 16 / 262144 % 64) * 64 + a * 2 ^ 16 / 4096 % 64)
      / 2 ^ (6 + 6 - 8) % 256 = a := by
    norm_num
    omega
  rw [o1]

/-- Decoding the encoding of two last bytes. -/
theorem decode_two (a b : Nat) (ha : a < 256) (hb : b < 256) (out : QByteArray) :
    ((toBase64 [a, b]).foldl decodeStep { buf := 0, nbits := 0, output := out }).output =
      out ++ [a, b] := by
  simp only [toBase64, chunk_two a b hb, field_18, field_12, field_6, List.foldl_cons,
    List.foldl_nil, decodeStep_pad]
  rw [decodeStep_keep 0 0 _ out (Nat.mod_lt _ (by decide)) (by decide) (by decide)]
  rw [decodeStep_emit _ 6 _ out (Nat.mod_lt _ (by decide)) (by omega) (by decide)]
  rw [decodeStep_emit _ 4 _ _ (Nat.mod_lt _ (by decide)) (by omega) (by decide)]
  have e1 : (0 * 64 + (a * 65536 + b * 256) / 262144 % 64) * 64
      + (a * 65536 + b * 256) / 4096 % 64 = a * 16 + b / 16 := by omega
  have e2 : ((a * 16 + b / 16) % 2 ^ (6 + 6 - 8)) * 64
      + (a * 65536 + b * 256) / 64 % 64 = b * 4 := by
    norm_num
    omega
  have o1 : (a * 16 + b / 16) / 2 ^ (6 + 6 - 8) % 256 = a := by
    norm_num
    omega
  have o2 : (b * 4) / 2 ^ (4 + 6 - 8) % 256 = b := by
    norm_num
    omega
  rw [e1, e2, o1, o2]
  simp

/-- Decoding after encoding gives the bytes back, whatever output precedes them. -/
theorem decode_toBase64 (n : Nat) : ∀ (bs out : QByteArray), bs.length ≤ n →
    (∀ x ∈ bs, x < 256) →
    ((toBase64 bs).foldl decodeStep { buf := 0, nbits := 0, output := out }).output =
      out ++ bs := by
  induction n with
  | zero =>
    intro bs out hlen _
    have : bs = [] := List.length_eq_zero.mp (Nat.le_zero.mp hlen)
    subst this
    simp [toBase64]
  | succ n ih =>
    intro bs out hlen hbytes
    match bs, hlen, hbytes with
    | [], _, _ => simp [toBase64]
    | [a], _, hbytes => exact decode_one a (hbytes a (by simp)) out
    | [a, b], _, hbytes => exact decode_two a b (hbytes a (by simp)) (hbytes b (by simp)) out
    | a :: b :: c :: tail, hlen, hbytes =>
      rw [decode_group a b c (hbytes a (by simp)) (hbytes b (by simp)) (hbytes c (by simp))]
      rw [ih tail _ (by simp only [List.length_cons] at hlen; omega)
        (fun x hx => hbytes x (by simp [hx]))]
      simp

/-- The toolkit decoder inverts the toolkit encoder on byte arrays. -/
theorem fromBase64Encoding_toBase64 (bs : QByteArray) (h : ∀ x ∈ bs, x < 256) :
    fromBase64Encoding (toBase64 bs) =
      { decoded := bs, decodingStatus := Base64DecodingStatus.Ok } := by
  simp [fromBase64Encoding, decode_toBase64 bs.length bs [] (Nat.le_refl _) h]

/-- The encoder writes ASCII only, and no zero byte. -/
theorem toBase64_ascii (n : Nat) : ∀ bs : QByteArray, bs.length ≤ n →
    (∀ x ∈ bs, x < 256) → ∀ y ∈ toBase64 bs, 0 < y ∧ y < 128 := by
  induction n with
  | zero =>
    intro bs hlen _
    have : bs = [] := List.length_eq_zero.mp (Nat.le_zero.mp hlen)
    subst this
    simp [toBase64]
  | succ n ih =>
    intro bs hlen hbytes
    match bs, hlen, hbytes with
    | [], _, _ => simp [toBase64]
    | [a], _, _ =>
      simp only [toBase64, field_18, field_12, List.mem_cons, List.mem_singleton,
        List.mem_nil_iff, or_false]
      rintro y (rfl | rfl | rfl | rfl)
      · exact alphabetAt_lt _ (Nat.mod_lt _ (by decide))
      · exact alphabetAt_lt _ (Nat.mod_lt _ (by decide))
      · decide
      · decide
    | [a, b], _, _ =>
      simp only [toBase64, field_18, field_12, field_6, List.mem_cons, List.mem_singleton,
        List.mem_nil_iff, or_false]
      rintro y (rfl | rfl | rfl | rfl)
      · exact alphabetAt_lt _ (Nat.mod_lt _ (by decide))
      · exact alphabetAt_lt _ (Nat.mod_lt _ (by decide))
      · exact alphabetAt_lt _ (Nat.mod_lt _ (by decide))
      · decide
    | a :: b :: c :: tail, hlen, hbytes =>
      simp only [toBase64, field_18, field_12, field_6, field_0, List.mem_cons]
      rintro y (rfl | rfl | rfl | rfl | hy)
      · exact alphabetAt_lt _ (Nat.mod_lt _ (by decide))
      · exact alphabetAt_lt _ (Nat.mod_lt _ (by decide))
      · exact alphabetAt_lt _ (Nat.mod_lt _ (by decide))
      · exact alphabetAt_lt _ (Nat.mod_lt _ (by decide))
      · exact ih tail (by simp only [List.length_cons] at hlen; omega)
          (fun x hx => hbytes x (by simp [hx])) y hy

/-! ## The base64 helpers -/

theorem toNat_ofNat_of_lt (n : Nat) (h : n < 256) : (Char.ofNat n).toNat = n := by
  have hv : n.isValidChar := Or.inl (by omega)
  rw [Char.ofNat, dif_pos hv]
  rfl

/-- The bytes of `toLatin1` are bytes. -/
theorem toLatin1_lt (s : QString) : ∀ x ∈ toLatin1 s, x < 256 := by
  intro x hx
  simp only [toLatin1, List.mem_flatMap] at hx
  obtain ⟨c, _, hc⟩ := hx
  split_ifs at hc with h
  · simp only [List.mem_singleton] at hc
    omega
  · have := List.eq_of_mem_replicate hc
    omega

/-- On a string of Latin-1 characters `toLatin1` lists the code points. -/
theorem toLatin1_of_latin1 (s : QString) (h : ∀ c ∈ s, c.toNat ≤ 255) :
    toLatin1 s = s.map Char.toNat := by
  induction s with
  | nil => rfl
  | cons c cs ih =>
    have hc : c.toNat ≤ 255 := h c (by simp)
    have hcs : ∀ d ∈ cs, d.toNat ≤ 255 := fun d hd => h d (by simp [hd])
    have e := ih hcs
    simp only [toLatin1] at e
    simp [toLatin1, hc, e]

/-- Reading Latin-1 bytes as text and taking the Latin-1 bytes of the text gives the bytes. -/
theorem toLatin1_latin1Text (bs : QByteArray) (h : ∀ x ∈ bs, x < 256) :
    toLatin1 (latin1Text bs) = bs := by
  have hl : ∀ c ∈ latin1Text bs, c.toNat ≤ 255 := by
    intro c hc
    simp only [latin1Text, List.mem_map] at hc
    obtain ⟨x, hx, rfl⟩ := hc
    rw [toNat_ofNat_of_lt x (h x hx)]
    have := h x hx
    omega
  rw [toLatin1_of_latin1 _ hl, latin1Text, List.map_map]
  conv_rhs => rw [← List.map_id bs]
  apply List.map_congr_left
  intro x hx
  exact toNat_ofNat_of_lt x (h x hx)

/-- Taking the Latin-1 bytes of Latin-1 text and reading them as text gives the text. -/
theorem latin1Text_toLatin1 (s : QString) (h : ∀ c ∈ s, c.toNat ≤ 255) :
    latin1Text (toLatin1 s) = s := by
  rw [toLatin1_of_latin1 s h, latin1Text, List.map_map]
  conv_rhs => rw [← List.map_id s]
  apply List.map_congr_left
  intro c _
  exact Char.ofNat_toNat c

/-- On ASCII bytes the UTF-8 reading is the Latin-1 reading. -/
theorem fromUtf8Aux_ascii (fuel : Nat) : ∀ bs : QByteArray, bs.length ≤ fuel →
    (∀ y ∈ bs, y < 128) → fromUtf8Aux fuel bs = latin1Text bs := by
  induction fuel with
  | zero =>
    intro bs hlen _
    have : bs = [] := List.length_eq_zero.mp (Nat.le_zero.mp hlen)
    subst this
    rfl
  | succ fuel ih =>
    intro bs hlen hascii
    cases bs with
    | nil => rfl
    | cons b rest =>
      have hb : b < 128 := hascii b (by simp)
      have hnext : utf8Next b rest = (Char.ofNat b, rest) := by simp [utf8Next, hb]
      simp only [fromUtf8Aux, hnext, latin1Text, List.map_cons]
      congr 1
      exact ih rest (by simp only [List.length_cons] at hlen; omega)
        (fun y hy => hascii y (by simp [hy]))

theorem fromUtf8_ascii (bs : QByteArray) (h : ∀ y ∈ bs, y < 128) :
    fromUtf8 bs = latin1Text bs :=
  fromUtf8Aux_ascii bs.length bs (Nat.le_refl _) h

/-- A conversion reads the whole array when the toolkit does not stop at zero bytes, or when
the array has none. -/
theorem convertedBytes_eq_self (stopsAtZeroByte : Bool) (b : QByteArray)
    (h : stopsAtZeroByte = true → ∀ x ∈ b, x ≠ 0) : convertedBytes stopsAtZeroByte b = b := by
  cases stopsAtZeroByte with
  | false => rfl
  | true =>
    simp only [convertedBytes, if_true]
    rw [List.takeWhile_eq_self_iff]
    intro x hx
    simpa using h rfl x hx

/-- With the toolkit as documented, in either version, `atob` is the base64 text of the
Latin-1 bytes, read character by character. -/
theorem atob_qtWith (stopsAtZeroByte : Bool) (s : QString) :
    Window.atob (qtWith stopsAtZeroByte) s = latin1Text (toBase64 (toLatin1 s)) := by
  have hascii := toBase64_ascii (toLatin1 s).length (toLatin1 s) (Nat.le_refl _) (toLatin1_lt s)
  show fromUtf8 (convertedBytes stopsAtZeroByte (toBase64 (toLatin1 s))) = _
  rw [convertedBytes_eq_self _ _ (fun _ x hx => by have := hascii x hx; omega)]
  exact fromUtf8_ascii _ (fun y hy => (hascii y hy).2)

/-- C8, where the code departs from it.  What holds, in both versions of the toolkit: `atob s`
is the base64 encoding of the Latin-1 bytes of `s`, and `btoa s` is the Latin-1 text of what
the toolkit decodes from the Latin-1 bytes of `s`.  What fails: the toolkit decoder, called
with its default options, skips every character outside the alphabet and always reports `Ok`,
so the test of `btoa` on the decoding status never sends it to the empty string.  On the text
"aGk!", which is not valid base64, `btoa` returns "hi", the same as on the valid "aGk=", where
the claim says the empty string. -/
theorem C8_btoa_decodes_invalid_base64 :
    (∀ (stopsAtZeroByte : Bool) (s : QString),
      Window.atob (qtWith stopsAtZeroByte) s = latin1Text (toBase64 (toLatin1 s))) ∧
    (∀ (stopsAtZeroByte : Bool) (s : QString),
      ((qtWith stopsAtZeroByte).fromBase64Encoding (toLatin1 s)).decodingStatus
        = Base64DecodingStatus.Ok ∧
      Window.btoa (qtWith stopsAtZeroByte) s
        = (qtWith stopsAtZeroByte).fromLatin1 (fromBase64Encoding (toLatin1 s)).decoded) ∧
    isValidBase64 (toLatin1 (qs "aGk=")) = true ∧
    Window.btoa qt (qs "aGk=") = qs "hi" ∧
    isValidBase64 (toLatin1 (qs "aGk!")) = false ∧
    Window.btoa qt (qs "aGk!") = qs "hi" ∧
    Window.btoa qt5 (qs "aGk!") = qs "hi" ∧
    Window.btoa qt (qs "aGk!") ≠ qs "" :=
  ⟨atob_qtWith, fun _ _ => ⟨rfl, rfl⟩, by decide, by decide, by decide, by decide, by decide,
    by decide⟩

/-- C10 as stated fails with version 5 of the toolkit, whose `fromLatin1` stops at the first
zero byte: the string of U+0000 followed by "a" has only Latin-1 characters, `atob` encodes
it as "AGE=", and `btoa` of that is the empty string. -/
theorem C10_zero_character_counterexample :
    (∀ c ∈ [Char.ofNat 0, 'a'], c.toNat ≤ 255) ∧
    Window.atob qt5 [Char.ofNat 0, 'a'] = qs "AGE=" ∧
    Window.btoa qt5 (Window.atob qt5 [Char.ofNat 0, 'a']) = [] ∧
    Window.btoa qt5 (Window.atob qt5 [Char.ofNat 0, 'a']) ≠ [Char.ofNat 0, 'a'] := by
  decide

/-- C10, amended: for every string `s` whose characters are all Latin-1 (code point at most
255) and, when the toolkit stops at the first zero byte in converting a byte array to a string,
none of whose characters is U+0000, `btoa (atob s) = s`; the decoder of `btoa` reports `Ok` on
the output of `atob` and decodes it to the Latin-1 bytes of `s`, so the empty-string branch of
`btoa` is not taken there. -/
theorem C10_btoa_atob_round_trip (stopsAtZeroByte : Bool) (s : QString)
    (hlatin1 : ∀ c ∈ s, c.toNat ≤ 255)
    (hzero : stopsAtZeroByte = true → ∀ c ∈ s, c.toNat ≠ 0) :
    Window.btoa (qtWith stopsAtZeroByte) (Window.atob (qtWith stopsAtZeroByte) s) = s ∧
    ((qtWith stopsAtZeroByte).fromBase64Encoding
      (toLatin1 (Window.atob (qtWith stopsAtZeroByte) s))).decodingStatus
      = Base64DecodingStatus.Ok ∧
    ((qtWith stopsAtZeroByte).fromBase64Encoding
      (toLatin1 (Window.atob (qtWith stopsAtZeroByte) s))).decoded = toLatin1 s := by
  have hbytes := toLatin1_lt s
  have hascii := toBase64_ascii (toLatin1 s).length (toLatin1 s) (Nat.le_refl _) hbytes
  have hback : toLatin1 (Window.atob (qtWith stopsAtZeroByte) s) = toBase64 (toLatin1 s) := by
    rw [atob_qtWith]
    exact toLatin1_latin1Text _ (fun x hx => by have := hascii x hx; omega)
  have hdec : (qtWith stopsAtZeroByte).fromBase64Encoding
      (toLatin1 (Window.atob (qtWith stopsAtZeroByte) s)) =
      { decoded := toLatin1 s, decodingStatus := Base64DecodingStatus.Ok } := by
    rw [hback]
    exact fromBase64Encoding_toBase64 _ hbytes
  refine ⟨?_, by rw [hdec], by rw [hdec]⟩
  unfold Window.btoa
  simp only [hdec, ne_eq, not_true_eq_false, if_false]
  show latin1Text (convertedBytes stopsAtZeroByte (toLatin1 s)) = s
  have hwhole : convertedBytes stopsAtZeroByte (toLatin1 s) = toLatin1 s := by
    apply convertedBytes_eq_self
    intro hstops x hx
    rw [toLatin1_of_latin1 s hlatin1, List.mem_map] at hx
    obtain ⟨c, hc, rfl⟩ := hx
    exact hzero hstops c hc
  rw [hwhole]
  exact latin1Text_toLatin1 s hlatin1

/-- C10 at the string "héllo", whose é is the Latin-1 character 233, with version 5 of the
toolkit, and at the string of U+0000 followed by "a" with version 6. -/
theorem C10_btoa_atob_round_trip_witness :
    Window.atob qt5 (qs "héllo") = qs "aOlsbG8=" ∧
    Window.btoa qt5 (Window.atob qt5 (qs "héllo")) = qs "héllo" ∧
    Window.btoa qt (Window.atob qt [Char.ofNat 0, 'a']) = [Char.ofNat 0, 'a'] :=
  ⟨by decide,
    (C10_btoa_atob_round_trip true (qs "héllo") (by decide) (fun _ => by decide)).1,
    (C10_btoa_atob_round_trip false [Char.ofNat 0, 'a'] (by decide)
      (fun h => Bool.noConfusion h)).1⟩

/-! ## `open` -/

/-- One turn of the loop of `open`: the URL is opened exactly when the entry splits into
"external" and "yes". -/
theorem openFeature_eq (url : QString) (w : Window) (e : QString) :
    Window.openFeature url w e =
      if split e '=' = [qs "external", qs "yes"] then w.openUrl url else w := by
  unfold Window.openFeature
  rcases hs : split e '=' with _ | ⟨a, _ | ⟨b, _ | ⟨c, rest⟩⟩⟩
  · simp
  · simp
  · by_cases h : a = qs "external" ∧ b = qs "yes"
    · simp [h.1, h.2]
    · have : ¬ [a, b] = [qs "external", qs "yes"] := by
        intro hab
        simp only [List.cons.injEq, and_true] at hab
        exact h hab
      simp [h, this]
  · simp

/-- The loop of `open`: one call of the URL handler for each matching entry, nothing else. -/
theorem foldl_openFeature (url : QString) (es : List QString) : ∀ w : Window,
    es.foldl (Window.openFeature url) w =
      { w with openedUrls := (w.openedUrls ++ List.replicate
          (es.countP (fun e => decide (split e '=' = [qs "external", qs "yes"]))) url) } := by
  induction es with
  | nil => intro w; simp
  | cons e es ih =>
    intro w
    rw [List.foldl_cons, ih, openFeature_eq]
    by_cases h : split e '=' = [qs "external", qs "yes"]
    · simp only [h, if_true, Window.openUrl, List.countP_cons_of_pos, decide_True,
        List.replicate_succ, List.append_assoc, List.singleton_append]
    · simp [h]

/-- C5: `open` hands `url` to the URL handler of the system if and only if `windowFeatures`,
split on ',' with empty parts skipped, has an entry that splits on '=' (empty parts skipped)
into exactly "external" and "yes".  The only effect of `open` is a number `k` of calls of the
handler, each with `url`; `k` is positive exactly when an entry matches; without a matching
entry the state is unchanged; and `windowName` does not influence the result. -/
theorem C5_open_external_yes (url windowName windowFeatures : QString) (w : Window) :
    (∃ k, Window.open url windowName windowFeatures w
          = { w with openedUrls := w.openedUrls ++ List.replicate k url } ∧
        (0 < k ↔ ∃ e ∈ split windowFeatures ',', split e '=' = [qs "external", qs "yes"])) ∧
    ((¬ ∃ e ∈ split windowFeatures ',', split e '=' = [qs "external", qs "yes"]) →
      Window.open url windowName windowFeatures w = w) ∧
    (∀ otherName, Window.open url otherName windowFeatures w
      = Window.open url windowName windowFeatures w) := by
  have hcount : (0 < (split windowFeatures ',').countP
        (fun e => decide (split e '=' = [qs "external", qs "yes"]))) ↔
      ∃ e ∈ split windowFeatures ',', split e '=' = [qs "external", qs "yes"] := by
    rw [List.countP_pos_iff]
    simp
  refine ⟨⟨_, foldl_openFeature url _ w, hcount⟩, ?_, fun _ => rfl⟩
  intro hnone
  have hzero : (split windowFeatures ',').countP
      (fun e => decide (split e '=' = [qs "external", qs "yes"])) = 0 := by
    by_contra hne
    exact hnone (hcount.mp (Nat.pos_of_ne_zero hne))
  show (split windowFeatures ',').foldl (Window.openFeature url) w = w
  rw [foldl_openFeature, hzero]
  simp

/-- C5 on sample feature lists: "external=yes" among other entries opens the URL once, and a
list without that entry opens nothing. -/
theorem C5_open_external_yes_witness :
    (Window.open (qs "http://example.org/") (qs "_blank") (qs "width=200,,external=yes")
      (Window.new MainWindow.empty)).openedUrls = [qs "http://example.org/"] ∧
    Window.open (qs "http://example.org/") (qs "_blank") (qs "width=200,external=no")
      (Window.new MainWindow.empty) = Window.new MainWindow.empty :=
  ⟨by decide,
    (C5_open_external_yes (qs "http://example.org/") (qs "_blank")
      (qs "width=200,external=no") (Window.new MainWindow.empty)).2.1 (by decide)⟩

/-! ## What `handleFinishedLoadingReply` leaves behind -/

/-- The views that the error-free branch appends, as a list: the two fixed views, then one
view for each of the three tests that succeeds. -/
theorem selectViews_views (tk : Toolkit) (reply : QNetworkReply) (rawData : QByteArray)
    (m : MainWindow) :
    (selectViews tk reply rawData m).1.views =
      m.views ++ [View.DebugView, View.RawSourceView]
        ++ (if (tk.fromJson rawData).isSome then [View.JSONView] else [])
        ++ (if reply.contentType.isSome && contains (reply.contentType.getD []) (qs "text/html")
            then [View.HTMLView] else [])
        ++ (if endsWithCaseInsensitive reply.path (qs ".qml") ||
              (reply.contentType.isSome && contains (reply.contentType.getD []) (qs "text/qml"))
            then [View.QMLView] else []) := by
  unfold selectViews
  simp only [MainWindow.appendView]
  split_ifs <;> simp

/-- The active view index that the error-free branch computes: one, plus one for each of the
content-type and QML tests that succeeds. -/
theorem selectViews_index (tk : Toolkit) (reply : QNetworkReply) (rawData : QByteArray)
    (m : MainWindow) :
    (selectViews tk reply rawData m).2 =
      1 + (if reply.contentType.isSome && contains (reply.contentType.getD []) (qs "text/html")
            then 1 else 0)
        + (if endsWithCaseInsensitive reply.path (qs ".qml") ||
              (reply.contentType.isSome && contains (reply.contentType.getD []) (qs "text/qml"))
            then 1 else 0) := by
  unfold selectViews
  simp only [MainWindow.appendView]
  split_ifs <;> simp

/-- The views of the host after the handler. -/
theorem handleFinishedLoadingReply_views (tk : Toolkit) (sender : Nat) (reply : QNetworkReply)
    (w : Window) :
    (Window.handleFinishedLoadingReply tk sender reply w).m_mainWindow.views =
      if reply.error then []
      else (selectViews tk reply reply.data w.m_mainWindow.clearViews).1.views := by
  unfold Window.handleFinishedLoadingReply
  simp only [MainWindow.updateGlobalHistory, MainWindow.setActiveViewIndex,
    MainWindow.clearViews, QNetworkReply.readAll]
  split_ifs <;> rfl

/-- The active view index of the host after the handler. -/
theorem handleFinishedLoadingReply_index (tk : Toolkit) (sender : Nat) (reply : QNetworkReply)
    (w : Window) :
    (Window.handleFinishedLoadingReply tk sender reply w).m_mainWindow.activeViewIndex =
      if reply.error then 0
      else (selectViews tk reply reply.data w.m_mainWindow.clearViews).2 := by
  unfold Window.handleFinishedLoadingReply
  simp only [MainWindow.updateGlobalHistory, MainWindow.setActiveViewIndex,
    MainWindow.clearViews, QNetworkReply.readAll]
  split_ifs <;> rfl

/-- The document after the handler: the same object, marked complete, holding the bytes read
and two empty JSON objects. -/
theorem handleFinishedLoadingReply_document (tk : Toolkit) (sender : Nat)
    (reply : QNetworkReply) (w : Window) :
    (Window.handleFinishedLoadingReply tk sender reply w).m_document =
      { id := w.m_document.id, url := w.m_document.url, readyState := qs "complete",
        rawData := reply.data, objectType := [], objectValue := [] } := by
  rfl

/-- C2: for a finished reply that reports a network error, after `handleFinishedLoadingReply`
the view list of the host is empty (the earlier views are cleared and none is appended) and the
ready-state of the current document is "complete". -/
theorem C2_error_reply_leaves_no_view (tk : Toolkit) (sender : Nat) (reply : QNetworkReply)
    (w : Window) (herror : reply.error = true) :
    (Window.handleFinishedLoadingReply tk sender reply w).m_mainWindow.views = [] ∧
    (Window.handleFinishedLoadingReply tk sender reply w).m_document.readyState
      = qs "complete" := by
  constructor
  · rw [handleFinishedLoadingReply_views, if_pos herror]
  · rw [handleFinishedLoadingReply_document]

/-- C2 at a host that shows an earlier page and a reply with an error. -/
theorem C2_error_reply_leaves_no_view_witness :
    (Window.new MainWindow.showingPage).m_mainWindow.views ≠ [] ∧
    (Window.handleFinishedLoadingReply qt 0 replyWithError
      (Window.new MainWindow.showingPage)).m_mainWindow.views = [] ∧
    (Window.handleFinishedLoadingReply qt 0 replyWithError
      (Window.new MainWindow.showingPage)).m_document.readyState = qs "complete" :=
  ⟨by decide,
    C2_error_reply_leaves_no_view qt 0 replyWithError (Window.new MainWindow.showingPage) rfl⟩

/-- C3 as stated fails: a reply without error whose body is JSON, whose content type contains
"text/html" and whose path ends in ".qml" makes the handler append five views, not at most
four. -/
theorem C3_five_views_counterexample :
    ¬ ((Window.handleFinishedLoadingReply qt 0 replyAllViews
        (Window.new MainWindow.empty)).m_mainWindow.views.length ≤ 4) := by
  decide

/-- C3, amended: for every finished reply (any error status, body, content type and path), the
number of views that `handleFinishedLoadingReply` appends to the host is between 0 and 5
inclusive. -/
theorem C3_view_count_at_most_five (tk : Toolkit) (sender : Nat) (reply : QNetworkReply)
    (w : Window) :
    0 ≤ (Window.handleFinishedLoadingReply tk sender reply w).m_mainWindow.views.length ∧
    (Window.handleFinishedLoadingReply tk sender reply w).m_mainWindow.views.length ≤ 5 := by
  refine ⟨Nat.zero_le _, ?_⟩
  rw [handleFinishedLoadingReply_views]
  split_ifs
  · simp
  · rw [selectViews_views]
    simp only [MainWindow.clearViews, List.nil_append, List.length_append, List.length_cons,
      List.length_nil]
    split_ifs <;> simp

/-- C4: for a finished reply without network error, the handler appends exactly one `HTMLView`
when the content type is present and contains "text/html", and no `HTMLView` when the content
type is absent or does not contain "text/html". -/
theorem C4_html_view_iff_content_type (tk : Toolkit) (sender : Nat) (reply : QNetworkReply)
    (w : Window) (hok : reply.error = false) :
    ((∃ ct, reply.contentType = some ct ∧ contains ct (qs "text/html") = true) →
      List.count View.HTMLView
        (Window.handleFinishedLoadingReply tk sender reply w).m_mainWindow.views = 1) ∧
    ((reply.contentType = none ∨
        ∃ ct, reply.contentType = some ct ∧ contains ct (qs "text/html") = false) →
      List.count View.HTMLView
        (Window.handleFinishedLoadingReply tk sender reply w).m_mainWindow.views = 0) := by
  rw [handleFinishedLoadingReply_views, hok, selectViews_views]
  simp only [Bool.false_eq_true, if_false, MainWindow.clearViews, List.nil_append]
  constructor
  · rintro ⟨ct, hct, hhtml⟩
    simp only [hct, Option.isSome_some, Option.getD_some, hhtml, Bool.and_self, if_true]
    split_ifs <;> decide
  · rintro (hnone | ⟨ct, hct, hhtml⟩)
    · simp only [hnone, Option.isSome_none, Bool.false_and, Bool.false_eq_true, if_false]
      split_ifs <;> decide
    · simp only [hct, Option.isSome_some, Option.getD_some, hhtml, Bool.and_false,
        Bool.false_eq_true, if_false]
      split_ifs <;> decide

/-- C4 at an HTML reply (one `HTMLView`) and, through the second half, at a reply without
content type (none). -/
theorem C4_html_view_iff_content_type_witness :
    List.count View.HTMLView
      (Window.handleFinishedLoadingReply qt 0 replyHtml
        (Window.new MainWindow.empty)).m_mainWindow.views = 1 ∧
    List.count View.HTMLView
      (Window.handleFinishedLoadingReply qt 0 replyPlain
        (Window.new MainWindow.empty)).m_mainWindow.views = 0 :=
  ⟨(C4_html_view_iff_content_type qt 0 replyHtml (Window.new MainWindow.empty) rfl).1
      ⟨qs "text/html; charset=utf-8", rfl, by decide⟩,
    (C4_html_view_iff_content_type qt 0 replyPlain (Window.new MainWindow.empty) rfl).2
      (Or.inl rfl)⟩

/-- C6, where the code departs from it: whatever the reply, the handler stores the bytes read
as the raw data of the document and stores an empty object as its JSON object value; for the
reply whose body is the JSON object with the member `"a": 1`, the toolkit parses the body to
that one-member object, and the object value of the document is empty all the same. -/
theorem C6_object_value_is_left_empty :
    (∀ (tk : Toolkit) (sender : Nat) (reply : QNetworkReply) (w : Window),
      (Window.handleFinishedLoadingReply tk sender reply w).m_document.rawData = reply.data ∧
      (Window.handleFinishedLoadingReply tk sender reply w).m_document.objectValue = []) ∧
    qt.fromJson replyJsonObject.data
      = some (QJsonDocument.Object [([97], QJsonValue.Number [49])]) ∧
    (Window.handleFinishedLoadingReply qt 0 replyJsonObject
      (Window.new MainWindow.empty)).m_document.objectValue = [] ∧
    (Window.handleFinishedLoadingReply qt 0 replyJsonObject
      (Window.new MainWindow.empty)).m_mainWindow.views
        = [View.DebugView, View.RawSourceView, View.JSONView] :=
  ⟨fun _ _ _ _ => ⟨rfl, rfl⟩, rfl, rfl, by decide⟩

/-- C9: for a finished reply without network error, the active view index that the handler
sets on the host is a valid index into the list of views it has built, at least 1; the list
starts with `DebugView` and `RawSourceView`, so the active view is not the `DebugView`. -/
theorem C9_active_view_index_valid (tk : Toolkit) (sender : Nat) (reply : QNetworkReply)
    (w : Window) (hok : reply.error = false) :
    1 ≤ (Window.handleFinishedLoadingReply tk sender reply w).m_mainWindow.activeViewIndex ∧
    (Window.handleFinishedLoadingReply tk sender reply w).m_mainWindow.activeViewIndex
      < ((Window.handleFinishedLoadingReply tk sender reply w).m_mainWindow.views.length : Int) ∧
    (Window.handleFinishedLoadingReply tk sender reply w).m_mainWindow.views.get? 0
      = some View.DebugView ∧
    (Window.handleFinishedLoadingReply tk sender reply w).m_mainWindow.views.get? 1
      = some View.RawSourceView ∧
    (Window.handleFinishedLoadingReply tk sender reply w).m_mainWindow.views.get?
      (Window.handleFinishedLoadingReply tk sender reply w).m_mainWindow.activeViewIndex.toNat
      ≠ some View.DebugView := by
  rw [handleFinishedLoadingReply_views, handleFinishedLoadingReply_index, hok,
    selectViews_views, selectViews_index]
  simp only [Bool.false_eq_true, if_false, MainWindow.clearViews, List.nil_append]
  split_ifs <;> simp

/-- C9 at an HTML reply: three views, the active one at index 2. -/
theorem C9_active_view_index_valid_witness :
    (Window.handleFinishedLoadingReply qt 0 replyHtml
      (Window.new MainWindow.empty)).m_mainWindow.activeViewIndex = 2 ∧
    (Window.handleFinishedLoadingReply qt 0 replyHtml
      (Window.new MainWindow.empty)).m_mainWindow.views
        = [View.DebugView, View.RawSourceView, View.HTMLView] ∧
    1 ≤ (Window.handleFinishedLoadingReply qt 0 replyHtml
      (Window.new MainWindow.empty)).m_mainWindow.activeViewIndex :=
  ⟨by decide, by decide,
    (C9_active_view_index_valid qt 0 replyHtml (Window.new MainWindow.empty) rfl).1⟩

/-! ## Navigation -/

/-- What the handler does to the held reply: it is let go when it is the sender. -/
theorem handleFinishedLoadingReply_networkReply (tk : Toolkit) (sender : Nat)
    (reply : QNetworkReply) (w : Window) :
    (Window.handleFinishedLoadingReply tk sender reply w).m_networkReply =
      if w.m_networkReply = some sender then none else w.m_networkReply := rfl

/-- The state a reply is left in by `abort()`, with the delivery of `finished()` recorded when
the toolkit delivers it at once. -/
theorem abortReply_replies (tk : Toolkit) (i : Nat) (r : QNetworkReply) (w : Window) :
    (Window.abortReply tk i r w).replies =
      w.replies.set i
        (if tk.abortEmitsFinished then { r.abort with finishedEmitted := true } else r.abort) := by
  unfold Window.abortReply
  cases tk.abortEmitsFinished <;> rfl

/-- The call of `abort()`, with the handler it may run, touches neither the identity of the
document, nor the allocation counter, the location, the navigator, or the documents handed to
`deleteLater`. -/
theorem abortReply_frame (tk : Toolkit) (i : Nat) (r : QNetworkReply) (w : Window) :
    (Window.abortReply tk i r w).m_document.id = w.m_document.id ∧
    (Window.abortReply tk i r w).nextObjectId = w.nextObjectId ∧
    (Window.abortReply tk i r w).m_location = w.m_location ∧
    (Window.abortReply tk i r w).m_navigator = w.m_navigator ∧
    (Window.abortReply tk i r w).deletedLaterDocuments = w.deletedLaterDocuments := by
  unfold Window.abortReply
  cases tk.abortEmitsFinished <;> exact ⟨rfl, rfl, rfl, rfl, rfl⟩

/-- The first statement of `handleLocationHrefChange` touches neither the identity of the
document, nor the allocation counter, the location, the navigator, or the documents handed to
`deleteLater`, and issues no reply. -/
theorem abortRunning_frame (tk : Toolkit) (w : Window) :
    (Window.abortRunning tk w).m_document.id = w.m_document.id ∧
    (Window.abortRunning tk w).nextObjectId = w.nextObjectId ∧
    (Window.abortRunning tk w).m_location = w.m_location ∧
    (Window.abortRunning tk w).m_navigator = w.m_navigator ∧
    (Window.abortRunning tk w).deletedLaterDocuments = w.deletedLaterDocuments ∧
    (Window.abortRunning tk w).replies.length = w.replies.length := by
  unfold Window.abortRunning
  split
  · exact ⟨rfl, rfl, rfl, rfl, rfl, rfl⟩
  · split
    · exact ⟨rfl, rfl, rfl, rfl, rfl, rfl⟩
    · rename_i i _ _ r _
      split_ifs
      · obtain ⟨h1, h2, h3, h4, h5⟩ := abortReply_frame tk i r w
        refine ⟨h1, h2, h3, h4, h5, ?_⟩
        show (Window.abortReply tk i r w).replies.length = w.replies.length
        rw [abortReply_replies, List.length_set]
      · exact ⟨rfl, rfl, rfl, rfl, rfl, rfl⟩

/-- The fields of the window after `handleLocationHrefChange`, from the state its first
statement leaves. -/
theorem handleLocationHrefChange_fields (tk : Toolkit) (href : QString) (hardReload : Bool)
    (w : Window) :
    (Window.handleLocationHrefChange tk href hardReload w).replies
      = (Window.abortRunning tk w).replies ++ [QNetworkReply.get href] ∧
    (Window.handleLocationHrefChange tk href hardReload w).m_networkReply
      = some (Window.abortRunning tk w).replies.length ∧
    (Window.handleLocationHrefChange tk href hardReload w).m_document
      = ((Document.new (Window.abortRunning tk w).nextObjectId).setURL href).setReadyState
          (qs "loading") ∧
    (Window.handleLocationHrefChange tk href hardReload w).nextObjectId
      = (Window.abortRunning tk w).nextObjectId + 1 ∧
    (Window.handleLocationHrefChange tk href hardReload w).deletedLaterDocuments
      = (Window.abortRunning tk w).deletedLaterDocuments
          ++ [(Window.abortRunning tk w).m_document.id] ∧
    (Window.handleLocationHrefChange tk href hardReload w).m_location
      = (Window.abortRunning tk w).m_location ∧
    (Window.handleLocationHrefChange tk href hardReload w).m_navigator
      = (Window.abortRunning tk w).m_navigator :=
  ⟨rfl, rfl, rfl, rfl, rfl, rfl, rfl⟩

/-- C7: for every href and hardReload flag, after `handleLocationHrefChange` the document of
the window is a newly created one (its identity is the next the allocator gives out), distinct
from the previous one, with URL `href` and ready-state "loading"; the previous document is
handed to `deleteLater`; the location and the navigator are unchanged.  The window is one whose
document was allocated before the call. -/
theorem C7_navigation_replaces_document (tk : Toolkit) (href : QString) (hardReload : Bool)
    (w : Window) (hallocated : w.m_document.id < w.nextObjectId) :
    (Window.handleLocationHrefChange tk href hardReload w).m_document.id = w.nextObjectId ∧
    (Window.handleLocationHrefChange tk href hardReload w).m_document.id ≠ w.m_document.id ∧
    (Window.handleLocationHrefChange tk href hardReload w).m_document.url = href ∧
    (Window.handleLocationHrefChange tk href hardReload w).m_document.readyState
      = qs "loading" ∧
    (Window.handleLocationHrefChange tk href hardReload w).deletedLaterDocuments
      = w.deletedLaterDocuments ++ [w.m_document.id] ∧
    (Window.handleLocationHrefChange tk href hardReload w).m_location = w.m_location ∧
    (Window.handleLocationHrefChange tk href hardReload w).m_navigator = w.m_navigator := by
  obtain ⟨_, _, hdoc, _, hdel, hloc, hnav⟩ := handleLocationHrefChange_fields tk href hardReload w
  obtain ⟨fid, fnext, floc, fnav, fdel, _⟩ := abortRunning_frame tk w
  rw [hdoc, hdel, hloc, hnav, fid, fnext, floc, fnav, fdel]
  refine ⟨rfl, ?_, rfl, rfl, rfl, rfl, rfl⟩
  show w.nextObjectId ≠ w.m_document.id
  omega

/-- C7 at a freshly constructed window. -/
theorem C7_navigation_replaces_document_witness :
    (Window.new MainWindow.empty).m_document.id = 0 ∧
    (Window.handleLocationHrefChange qt (qs "http://example.org/") false
      (Window.new MainWindow.empty)).m_document.id = 3 ∧
    (Window.handleLocationHrefChange qt (qs "http://example.org/") false
      (Window.new MainWindow.empty)).m_document.id ≠ (Window.new MainWindow.empty).m_document.id :=
  ⟨rfl,
    (C7_navigation_replaces_document qt (qs "http://example.org/") false
      (Window.new MainWindow.empty) (by decide)).1,
    (C7_navigation_replaces_document qt (qs "http://example.org/") false
      (Window.new MainWindow.empty) (by decide)).2.1⟩

/-! ## The single-flight invariant -/

theorem singleFlight_new (mainWindow : MainWindow) : (Window.new mainWindow).SingleFlight := by
  constructor
  · intro i r h
    simp [Window.new] at h
  · intro i h
    simp [Window.new] at h

/-- A reply read from a list in which position `i` was overwritten by a stopped reply, if it
runs, sits at another position and was there before. -/
theorem running_of_set (l : List QNetworkReply) (i j : Nat) (a r : QNetworkReply)
    (ha : a.running = false) (h : (l.set i a)[j]? = some r) (hr : r.running = true) :
    i ≠ j ∧ l[j]? = some r := by
  rw [List.getElem?_set] at h
  by_cases hij : i = j
  · rw [if_pos hij] at h
    split_ifs at h
    · cases h
      rw [ha] at hr
      cases hr
  · rw [if_neg hij] at h
    exact ⟨hij, h⟩

/-- Overwriting a reply by a stopped one keeps the invariant. -/
theorem singleFlight_set (w : Window) (i : Nat) (a : QNetworkReply) (ha : a.running = false)
    (hw : w.SingleFlight) : ({ w with replies := w.replies.set i a } : Window).SingleFlight := by
  constructor
  · intro j r h hr
    exact hw.1 j r (running_of_set w.replies i j a r ha h hr).2 hr
  · intro j h
    show j + 1 = (w.replies.set i a).length
    rw [List.length_set]
    exact hw.2 j h

/-- The handler keeps the invariant when the sender has stopped, as a sender of `finished()`
has. -/
theorem singleFlight_handleFinishedLoadingReply (tk : Toolkit) (sender : Nat)
    (reply : QNetworkReply) (w : Window) (hw : w.SingleFlight)
    (hstopped : ∀ r, w.replies[sender]? = some r → r.running = false) :
    (Window.handleFinishedLoadingReply tk sender reply w).SingleFlight := by
  constructor
  · intro j r h hr
    have hheld : w.m_networkReply = some j := hw.1 j r h hr
    rw [handleFinishedLoadingReply_networkReply, hheld]
    have hne : j ≠ sender := by
      rintro rfl
      have := hstopped r h
      rw [this] at hr
      cases hr
    simp [hne]
  · intro j h
    rw [handleFinishedLoadingReply_networkReply] at h
    split_ifs at h
    exact hw.2 j h

/-- After the first statement of `handleLocationHrefChange` no reply is in flight. -/
theorem abortRunning_quiet (tk : Toolkit) (w : Window) (hw : w.SingleFlight) :
    ∀ (j : Nat) (r : QNetworkReply),
      (Window.abortRunning tk w).replies[j]? = some r → r.running = false := by
  intro j r h
  by_contra hr
  have hr : r.running = true := by simpa using hr
  unfold Window.abortRunning at h
  cases hheld : w.m_networkReply with
  | none =>
    rw [hheld] at h
    have := hw.1 j r h hr
    rw [hheld] at this
    cases this
  | some i =>
    rw [hheld] at h
    simp only at h
    cases hget : w.replies[i]? with
    | none =>
      rw [hget] at h
      have := hw.1 j r h hr
      rw [hheld] at this
      cases this
      rw [hget] at h
      cases h
    | some r0 =>
      rw [hget] at h
      simp only at h
      by_cases hrun : r0.isRunning = true
      · rw [if_pos hrun] at h
        have h : (Window.abortReply tk i r0 w).replies[j]? = some r := h
        rw [abortReply_replies] at h
        have hstop : (if tk.abortEmitsFinished then
            { r0.abort with finishedEmitted := true } else r0.abort).running = false := by
          split_ifs <;> rfl
        obtain ⟨hij, hold⟩ := running_of_set w.replies i j _ r hstop h hr
        have := hw.1 j r hold hr
        rw [hheld] at this
        cases this
        exact hij rfl
      · rw [if_neg hrun] at h
        have := hw.1 j r h hr
        rw [hheld] at this
        cases this
        rw [hget] at h
        cases h
        exact hrun hr

/-- The reply that was held and running is marked aborted by the first statement of
`handleLocationHrefChange`. -/
theorem abortRunning_aborts (tk : Toolkit) (w : Window) (i : Nat) (r : QNetworkReply)
    (hheld : w.m_networkReply = some i) (hget : w.replies[i]? = some r)
    (hrun : r.running = true) :
    ∃ r1, (Window.abortRunning tk w).replies[i]? = some r1 ∧ r1.aborted = true ∧
      r1.running = false := by
  have hlt : i < w.replies.length := by
    by_contra hge
    rw [List.getElem?_eq_none (by omega)] at hget
    cases hget
  have hrun1 : r.isRunning = true := hrun
  unfold Window.abortRunning
  rw [hheld]
  simp only [hget, hrun1, if_true]
  show ∃ r1, (Window.abortReply tk i r w).replies[i]? = some r1 ∧ _
  rw [abortReply_replies, List.getElem?_set, if_pos rfl, if_pos hlt]
  refine ⟨_, rfl, ?_, ?_⟩ <;> split_ifs <;> rfl

/-- A held reply that is not running is left as it is by the first statement of
`handleLocationHrefChange`. -/
theorem abortRunning_of_stopped (tk : Toolkit) (w : Window) (i : Nat) (r : QNetworkReply)
    (hheld : w.m_networkReply = some i) (hget : w.replies[i]? = some r)
    (hrun : r.running = false) : Window.abortRunning tk w = w := by
  unfold Window.abortRunning
  rw [hheld]
  simp [hget, QNetworkReply.isRunning, hrun]

/-- The function `handleLocationHrefChange` keeps the invariant. -/
theorem singleFlight_handleLocationHrefChange (tk : Toolkit) (href : QString)
    (hardReload : Bool) (w : Window) (hw : w.SingleFlight) :
    (Window.handleLocationHrefChange tk href hardReload w).SingleFlight := by
  obtain ⟨hreplies, hheld, _⟩ := handleLocationHrefChange_fields tk href hardReload w
  have hquiet := abortRunning_quiet tk w hw
  constructor
  · intro j r h hr
    rw [hreplies, List.getElem?_append] at h
    rw [hheld]
    split_ifs at h with hlt
    · have := hquiet j r h
      rw [this] at hr
      cases hr
    · have hj : j - (Window.abortRunning tk w).replies.length = 0 := by
        by_contra hne
        rw [List.getElem?_eq_none (by simp only [List.length_singleton]; omega)] at h
        cases h
      congr 1
      omega
  · intro j h
    rw [hheld] at h
    cases h
    rw [hreplies]
    simp

/-- Every event keeps the invariant. -/
theorem singleFlight_step (tk : Toolkit) (w : Window) (e : Event) (hw : w.SingleFlight) :
    (step tk w e).SingleFlight := by
  cases e with
  | requiresReload href hardReload =>
    exact singleFlight_handleLocationHrefChange tk href hardReload w hw
  | completes i error data contentType path =>
    unfold step
    cases hget : w.replies[i]? with
    | none => simpa only [hget] using hw
    | some r =>
      simp only [hget]
      split_ifs
      · exact singleFlight_set w i _ rfl hw
      · exact hw
  | finished i =>
    unfold step
    cases hget : w.replies[i]? with
    | none => simpa only [hget] using hw
    | some r =>
      simp only [hget]
      split_ifs with hcond
      · have hstop : r.running = false := by
          simp only [Bool.and_eq_true, Bool.not_eq_true'] at hcond
          exact hcond.1
        apply singleFlight_handleFinishedLoadingReply
        · exact singleFlight_set w i _ hstop hw
        · intro r1 h1
          have h1 : (w.replies.set i { r with finishedEmitted := true })[i]? = some r1 := h1
          rw [List.getElem?_set, if_pos rfl] at h1
          split_ifs at h1
          cases h1
          exact hstop
      · exact hw

/-- The invariant holds after every sequence of events. -/
theorem singleFlight_foldl (tk : Toolkit) (events : List Event) : ∀ w : Window,
    w.SingleFlight → (events.foldl (step tk) w).SingleFlight := by
  induction events with
  | nil => intro w hw; exact hw
  | cons e es ih => intro w hw; exact ih _ (singleFlight_step tk w e hw)

theorem singleFlight_run (tk : Toolkit) (mainWindow : MainWindow) (events : List Event) :
    (run tk mainWindow events).SingleFlight :=
  singleFlight_foldl tk events _ (singleFlight_new mainWindow)

/-- When only the last of a list of replies can be running, at most one is. -/
theorem filter_running_le_one (l : List QNetworkReply)
    (h : ∀ (i : Nat) (r : QNetworkReply), l[i]? = some r → r.running = true →
      i + 1 = l.length) :
    (l.filter QNetworkReply.running).length ≤ 1 := by
  rcases List.eq_nil_or_concat l with rfl | ⟨front, a, rfl⟩
  · simp
  · rw [List.concat_eq_append] at h ⊢
    have hfront : front.filter QNetworkReply.running = [] := by
      rw [List.filter_eq_nil_iff]
      intro r hr hrun
      obtain ⟨i, hi, hget⟩ := List.getElem_of_mem hr
      have hget2 : (front ++ [a])[i]? = some r := by
        rw [List.getElem?_append_left hi, List.getElem?_eq_getElem hi, hget]
      have := h i r hget2 hrun
      simp only [List.length_append, List.length_singleton] at this
      omega
    rw [List.filter_append, hfront, List.nil_append]
    simp only [List.filter]
    split <;> simp

/-- When no reply of a list is running, none is in flight. -/
theorem filter_running_eq_nil (l : List QNetworkReply)
    (h : ∀ (i : Nat) (r : QNetworkReply), l[i]? = some r → r.running = false) :
    (l.filter QNetworkReply.running).length = 0 := by
  rw [List.length_eq_zero, List.filter_eq_nil_iff]
  intro r hr hrun
  obtain ⟨i, hi, hget⟩ := List.getElem_of_mem hr
  have := h i r (by rw [List.getElem?_eq_getElem hi, hget])
  rw [this] at hrun
  cases hrun

/-- C1 as stated fails: when the held reply has completed and its `finished()` signal is still
queued, the window holds it, and `handleLocationHrefChange` issues the next request without
aborting it. -/
theorem C1_stopped_reply_not_aborted_counterexample :
    (run qt MainWindow.empty eventsFirstReplyComplete).m_networkReply = some 0 ∧
    ((Window.handleLocationHrefChange qt (qs "file:///b.txt") false
        (run qt MainWindow.empty eventsFirstReplyComplete)).replies[0]?).map
      QNetworkReply.aborted = some false ∧
    (Window.handleLocationHrefChange qt (qs "file:///b.txt") false
        (run qt MainWindow.empty eventsFirstReplyComplete)).m_networkReply = some 1 := by
  decide

/-- C1, amended: single-flight invariant of `Window`.  After every sequence of events, at most
one reply issued by the window is in flight, a reply in flight is the one the window holds, and
the reply the window holds, if any, is the one most recently issued.  Each call of
`handleLocationHrefChange` from such a state aborts the held reply if it is still running (a
held reply that has stopped is left as it is), so that no reply is in flight when the new
request is issued; then the new reply is appended to the replies issued, is the held reply,
and is the only one in flight. -/
theorem C1_single_flight (tk : Toolkit) (mainWindow : MainWindow) (events : List Event)
    (href : QString) (hardReload : Bool) :
    let w := run tk mainWindow events
    w.inFlight ≤ 1 ∧
    (∀ (i : Nat) (r : QNetworkReply), w.replies[i]? = some r → r.running = true →
      w.m_networkReply = some i) ∧
    (∀ i : Nat, w.m_networkReply = some i → i + 1 = w.replies.length) ∧
    (∀ (i : Nat) (r : QNetworkReply), w.m_networkReply = some i → w.replies[i]? = some r →
      r.running = true →
      ∃ r1, (Window.abortRunning tk w).replies[i]? = some r1 ∧ r1.aborted = true ∧
        r1.running = false) ∧
    (∀ (i : Nat) (r : QNetworkReply), w.m_networkReply = some i → w.replies[i]? = some r →
      r.running = false → Window.abortRunning tk w = w) ∧
    (Window.abortRunning tk w).inFlight = 0 ∧
    (Window.handleLocationHrefChange tk href hardReload w).replies
      = (Window.abortRunning tk w).replies ++ [QNetworkReply.get href] ∧
    (Window.handleLocationHrefChange tk href hardReload w).m_networkReply
      = some w.replies.length ∧
    (Window.handleLocationHrefChange tk href hardReload w).inFlight = 1 := by
  intro w
  have hw : w.SingleFlight := singleFlight_run tk mainWindow events
  have hquiet := abortRunning_quiet tk w hw
  have hzero : (Window.abortRunning tk w).inFlight = 0 :=
    filter_running_eq_nil _ hquiet
  obtain ⟨hreplies, hheld, _⟩ := handleLocationHrefChange_fields tk href hardReload w
  refine ⟨?_, hw.1, hw.2, ?_, ?_, hzero, hreplies, ?_, ?_⟩
  · exact filter_running_le_one w.replies (fun i r h hr => hw.2 i (hw.1 i r h hr))
  · intro i r h1 h2 h3
    exact abortRunning_aborts tk w i r h1 h2 h3
  · intro i r h1 h2 h3
    exact abortRunning_of_stopped tk w i r h1 h2 h3
  · rw [hheld, (abortRunning_frame tk w).2.2.2.2.2]
  · have hnil : (Window.abortRunning tk w).replies.filter QNetworkReply.running = [] :=
      List.length_eq_zero.mp hzero
    show ((Window.handleLocationHrefChange tk href hardReload w).replies.filter
      QNetworkReply.running).length = 1
    rw [hreplies, List.filter_append, hnil]
    rfl

/-- C1 seen on a short session: a second navigation while the first reply is in flight aborts
that reply and leaves the new one alone in flight. -/
theorem C1_single_flight_witness :
    (run qt MainWindow.empty eventsFirstReplyRunning).inFlight = 1 ∧
    ((Window.handleLocationHrefChange qt (qs "http://example.org/b") false
        (run qt MainWindow.empty eventsFirstReplyRunning)).replies.map
      QNetworkReply.aborted) = [true, false] ∧
    (Window.handleLocationHrefChange qt (qs "http://example.org/b") false
        (run qt MainWindow.empty eventsFirstReplyRunning)).inFlight = 1 :=
  ⟨by decide, by decide,
    (C1_single_flight qt MainWindow.empty eventsFirstReplyRunning
      (qs "http://example.org/b") false).2.2.2.2.2.2.2.2⟩

/-- In every state that a sequence of events reaches, the document of the window was allocated
earlier: the hypothesis of C7 holds there. -/
theorem run_document_allocated (tk : Toolkit) (mainWindow : MainWindow) (events : List Event) :
    (run tk mainWindow events).m_document.id < (run tk mainWindow events).nextObjectId := by
  have key : ∀ (es : List Event) (w : Window), w.m_document.id < w.nextObjectId →
      (es.foldl (step tk) w).m_document.id < (es.foldl (step tk) w).nextObjectId := by
    intro es
    induction es with
    | nil => intro w hw; exact hw
    | cons e es ih =>
      intro w hw
      apply ih
      cases e with
      | requiresReload href hardReload =>
        obtain ⟨_, _, hdoc, hnext, _⟩ := handleLocationHrefChange_fields tk href hardReload w
        show (Window.handleLocationHrefChange tk href hardReload w).m_document.id
          < (Window.handleLocationHrefChange tk href hardReload w).nextObjectId
        rw [hdoc, hnext]
        exact Nat.lt_succ_self _
      | completes i error data contentType path =>
        unfold step
        cases hget : w.replies[i]? with
        | none => simpa only [hget] using hw
        | some r =>
          simp only [hget]
          split_ifs
          · exact hw
          · exact hw
      | finished i =>
        unfold step
        cases hget : w.replies[i]? with
        | none => simpa only [hget] using hw
        | some r =>
          simp only [hget]
          split_ifs
          · exact hw
          · exact hw
  exact key events _ (show 0 < 3 by decide)

end WebAPI
